import Mathlib

/-!
# WelearnBrainBurst — task orchestration and session-state subsystem

Shallow embedding of `src/app.py` (the task-orchestration core): the global
mutable state (`GlobalState`, lines 100–117), the control-plane HTTP handlers
(`api_login` 268–294, `get_courses` 297–311, `start_task` 342–365,
`stop_tasks` 368–378, `get_status` 381–390) and the two worker thread bodies
(`BrainBurstThread.run` 419–432, `AwayFromKeyboardThread.run` 444–462).

Modelling conventions:
* Each HTTP handler runs as one atomic step, except `stop_tasks`, which is
  split into its two observable phases (`stop_event.set()` at line 372, then
  the joins and `state.reset()` at lines 373–375) so that a worker can observe
  the cancellation signal between them, as it can in the real program during
  the bounded joins.
* Worker `run` bodies are split at their suspension points (the `time.sleep`
  calls) into micro-steps on a program-counter (`WPhase`); the scheduler picks
  which spawned thread steps next via `Op.wstep`.
* `random.randint(lo, hi)` is modelled by an oracle draw `r : Nat` mapped into
  `[lo, hi]` when `lo ≤ hi`, and by `none` (a raised `ValueError`, caught by
  the worker's `except` which sets status `error`) when `lo > hi`.
* Network calls (`validate_cookies`, the course fetch) are oracles `Bool`.
* The Python registry `state.active_threads` holds references to thread
  objects; `state.reset()` empties the registry but the OS threads keep
  running.  `Sys.threads` is the append-only list of spawned threads and
  `GlobalState.active_threads` the registry, as a list of indices into it.
* Fields of `GlobalState` that no handler in scope reads (`current_task`,
  `log_buffer`, `cid`/`uid`/`classid`) are omitted; `config.json` writes are
  counted by `Sys.configWrites`.
-/

/-- `TaskStatusType` literal union, app.py lines 94–96. -/
inductive TaskStatus
  | idle
  | brain_burst
  | away_from_keyboard
  | error
  | completed
  | nologon
deriving DecidableEq

/-- `ProgressInfo` TypedDict, app.py lines 87–91. -/
structure ProgressInfo where
  current : Int
  total : Int
deriving DecidableEq

/-- `Union[int, Tuple[int, int]]` task parameter (`mycrate` / `duration`). -/
inductive Duration
  | fixed (d : Int)
  | range (lo hi : Int)
deriving DecidableEq

/-- The two worker thread classes. -/
inductive WorkerKind
  | brainBurst
  | awayFromKeyboard
deriving DecidableEq

/-- Program counter of a worker's `run` body: not yet scheduled, at the top of
the loop iteration with counter `i` (and resolved bound `t`), or returned. -/
inductive WPhase
  | notStarted
  | looping (i : Int) (t : Int)
  | finished
deriving DecidableEq

/-- A spawned thread object: its class, constructor arguments
(`unit_idx`, `mycrate`/`duration`), the oracle for its `randint` draw, and its
program counter. -/
structure Worker where
  kind : WorkerKind
  unit_idx : Int
  param : Duration
  oracle : Nat
  phase : WPhase
deriving DecidableEq

/-- The fields of `GlobalState` (app.py 106–117) that the handlers in scope
read or write.  `active_threads` is the registry, indices into `Sys.threads`. -/
structure GlobalState where
  task_status : TaskStatus
  progress : ProgressInfo
  stop_event : Bool
  active_threads : List Nat
  cookies : Option (List (List Char × List Char))
deriving DecidableEq

/-- `GlobalState.reset` (app.py 106–117): the state after resetting every
field.  In the source this is a method; it ignores the previous state, so it
embeds as a constant. -/
def GlobalState.reset : GlobalState :=
  { task_status := .nologon
    progress := ⟨0, 0⟩
    stop_event := false
    active_threads := []
    cookies := none }

/-- Whole-system state: the shared `GlobalState`, the append-only list of
spawned thread objects, and a count of `config.json` writes. -/
structure Sys where
  gs : GlobalState
  threads : List Worker
  configWrites : Nat
deriving DecidableEq

/-- Process start: `state = GlobalState()` runs `reset` (app.py 103–104, 120). -/
def sys0 : Sys := ⟨GlobalState.reset, [], 0⟩

/-- Python `str.split(sep)` on a one-character separator, written over
`List Char` by structural recursion (so it evaluates inside the kernel):
`"".split(";") == [""]`, and separators delimit possibly-empty fields. -/
def splitOnCharAux (c : Char) : List Char → List Char → List (List Char)
  | [], acc => [acc.reverse]
  | x :: xs, acc =>
      if x = c then acc.reverse :: splitOnCharAux c xs []
      else splitOnCharAux c xs (x :: acc)

/-- `cookies.split(";")` (app.py 276), over the character list of the text. -/
def splitOnChar (c : Char) (l : List Char) : List (List Char) := splitOnCharAux c l []

/-- `x.split("=", 1)` inside the cookie parse (app.py 276): split at the first
`=`; `none` when the entry holds no `=` (`dict(...)` then raises
`ValueError`). -/
def splitEq : List Char → Option (List Char × List Char)
  | [] => none
  | x :: xs =>
      if x = '=' then some ([], xs)
      else (splitEq xs).map (fun q => (x :: q.1, q.2))

/-- `dict(map(lambda x: x.split("=", 1), filter(None, cookies.split(";"))))`
(app.py 275–277): `none` models the raised `ValueError` on a malformed entry. -/
def parseCookies (raw : List Char) : Option (List (List Char × List Char)) :=
  ((splitOnChar ';' raw).filter (· ≠ [])).mapM splitEq

/-- `random.randint(*self.duration) if isinstance(self.duration, tuple) else
self.duration` (app.py 449–453).  The oracle `r` picks the uniform draw;
`none` is the `ValueError` raised by `randint` when `lo > hi`. -/
def resolveDuration : Duration → Nat → Option Int
  | .fixed d, _ => some d
  | .range lo hi, r => if lo ≤ hi then some (lo + (r % (hi - lo + 1).toNat : Nat)) else none

/-- One micro-step of a worker's `run` body (app.py 419–432 for
`BrainBurstThread`, 444–462 for `AwayFromKeyboardThread`), mutating the shared
`GlobalState`.  A `looping i t` step is one iteration: bound check, then
`stop_event` check (`break` falls through to `task_status = "completed"`),
then the progress write and the sleep. -/
def stepWorker (gs : GlobalState) (w : Worker) : GlobalState × Worker :=
  match w.kind, w.phase with
  | .brainBurst, .notStarted =>
      ({ gs with task_status := .brain_burst }, { w with phase := .looping 1 100 })
  | .brainBurst, .looping i _ =>
      if i < 101 then
        if gs.stop_event then
          ({ gs with task_status := .completed }, { w with phase := .finished })
        else
          ({ gs with progress := ⟨i, 100⟩ }, { w with phase := .looping (i + 1) 100 })
      else
        ({ gs with task_status := .completed }, { w with phase := .finished })
  | .awayFromKeyboard, .notStarted =>
      match resolveDuration w.param w.oracle with
      | none => ({ gs with task_status := .error }, { w with phase := .finished })
      | some t =>
          ({ gs with task_status := .away_from_keyboard }, { w with phase := .looping 0 t })
  | .awayFromKeyboard, .looping i t =>
      if i < t then
        if gs.stop_event then
          ({ gs with task_status := .completed }, { w with phase := .finished })
        else
          ({ gs with progress := ⟨i, t⟩ }, { w with phase := .looping (i + 1) t })
      else
        ({ gs with task_status := .completed }, { w with phase := .finished })
  | _, .finished => (gs, w)

/-- The progress pair a micro-step writes, if any (the `state.progress = ...`
assignments at app.py 427 and 457). -/
def stepWrite (gs : GlobalState) (w : Worker) : Option ProgressInfo :=
  match w.kind, w.phase with
  | .brainBurst, .looping i _ =>
      if i < 101 then (if gs.stop_event then none else some ⟨i, 100⟩) else none
  | .awayFromKeyboard, .looping i t =>
      if i < t then (if gs.stop_event then none else some ⟨i, t⟩) else none
  | _, _ => none

/-- Responses of the handlers (`jsonify(...)` payloads). -/
inductive Resp
  | ok
  | err (msg : String)
  | statusR (st : TaskStatus) (p : ProgressInfo) (activeThreads : Nat)
deriving DecidableEq

/-- `api_login` (app.py 268–294).  `state.reset()` runs first (line 271);
then the cookie text is parsed; `ok` is the `validate_cookies` oracle.  On
success the credentials are stored, `config.json` written once, and
`task_status` set to `idle` (line 286). -/
def api_login (s : Sys) (raw : List Char) (ok : Bool) : Sys × Resp :=
  let s1 : Sys := { s with gs := GlobalState.reset }
  match parseCookies raw with
  | none => (s1, .err "ValueError")
  | some cd =>
      if ok then
        ({ s1 with
            gs := { GlobalState.reset with cookies := some cd, task_status := .idle }
            configWrites := s1.configWrites + 1 }, .ok)
      else (s1, .err "Cookie验证失败")

/-- `start_task` (app.py 342–365): rejected unless `task_status == "idle"`;
then dispatch on the `type` string; a spawned thread is appended to the
registry and to the OS thread list.  The handler itself touches no other
state. -/
def start_task (s : Sys) (kind : String) (uidx : Int) (p : Duration) (r : Nat) :
    Sys × Resp :=
  if s.gs.task_status ≠ .idle then (s, .err "已有任务在进行中")
  else if kind = "brain_burst" then
    ({ s with
        gs := { s.gs with active_threads := s.gs.active_threads ++ [s.threads.length] }
        threads := s.threads ++ [⟨.brainBurst, uidx, p, r, .notStarted⟩] }, .ok)
  else if kind = "away_from_keyboard" then
    ({ s with
        gs := { s.gs with active_threads := s.gs.active_threads ++ [s.threads.length] }
        threads := s.threads ++ [⟨.awayFromKeyboard, uidx, p, r, .notStarted⟩] }, .ok)
  else (s, .err "未知任务类型")

/-- First phase of `stop_tasks` (app.py 372): `state.stop_event.set()`. -/
def stop_signal (s : Sys) : Sys :=
  { s with gs := { s.gs with stop_event := true } }

/-- Second phase of `stop_tasks` (app.py 373–376): after the bounded joins,
`state.reset()` runs unconditionally and the handler returns success.  The OS
threads survive the reset. -/
def stop_reset (s : Sys) : Sys × Resp :=
  ({ s with gs := GlobalState.reset }, .ok)

/-- `get_status` (app.py 381–390): read-only snapshot. -/
def get_status (s : Sys) : Resp :=
  .statusR s.gs.task_status s.gs.progress s.gs.active_threads.length

/-- `get_courses` (app.py 297–311): guarded by
`if not state.cookies or state.task_status == "nologon"` — `not cookies` is
true on `None` and on the empty dict; `remote_ok` is the network oracle. -/
def get_courses (s : Sys) (remote_ok : Bool) : Sys × Resp :=
  if s.gs.cookies.getD [] = [] ∨ s.gs.task_status = .nologon then
    (s, .err "请先登录")
  else (s, if remote_ok then .ok else .err "course fetch failed")

/-- Interleaved control-plane operations and worker micro-steps. -/
inductive Op
  | login (raw : List Char) (ok : Bool)
  | startTask (kind : String) (uidx : Int) (p : Duration) (r : Nat)
  | stopSignal
  | stopReset
  | getStatus
  | getCourses (remote_ok : Bool)
  | wstep (tid : Nat)

/-- Step the thread with index `tid`, if it exists. -/
def execWstep (s : Sys) (tid : Nat) : Sys :=
  match s.threads[tid]? with
  | none => s
  | some w =>
      let q := stepWorker s.gs w
      { s with gs := q.1, threads := s.threads.set tid q.2 }

/-- One interleaving step: dispatch an operation; worker micro-steps and the
signalling half of `stop` yield no HTTP response. -/
def execOp (s : Sys) : Op → Sys × Option Resp
  | .login raw ok => let q := api_login s raw ok; (q.1, some q.2)
  | .startTask k u p r => let q := start_task s k u p r; (q.1, some q.2)
  | .stopSignal => (stop_signal s, none)
  | .stopReset => let q := stop_reset s; (q.1, some q.2)
  | .getStatus => (s, some (get_status s))
  | .getCourses ok => let q := get_courses s ok; (q.1, some q.2)
  | .wstep tid => (execWstep s tid, none)

/-- Run a schedule of interleaved operations. -/
def execOps (s : Sys) (ops : List Op) : Sys :=
  ops.foldl (fun t op => (execOp t op).1) s

/-- The progress pairs one worker writes while it runs for `fuel` micro-steps.
`sched j` is the value of the shared `stop_event` the worker observes at its
`j`-th step — an arbitrary interference pattern from the control plane, which
may set the event (`stop_tasks` line 372) or replace it by a cleared one
(`reset`).  The writes themselves are taken from `stepWrite` and the state
evolution from `stepWorker`. -/
def writesFrom (sched : Nat → Bool) : Nat → GlobalState → Worker → Nat → List ProgressInfo
  | _, _, _, 0 => []
  | k, gs, w, fuel + 1 =>
      let gsk := { gs with stop_event := sched k }
      (stepWrite gsk w).toList ++
        writesFrom sched (k + 1) (stepWorker gsk w).1 (stepWorker gsk w).2 fuel

/-- The operations that can make `state.cookies` non-empty: only a login whose
cookie text parses and whose remote validation succeeds. -/
def opSetsCookies : Op → Prop
  | .login raw ok => ok = true ∧ (parseCookies raw).isSome = true
  | _ => False

/-- The session-lifecycle operations (`login`, either phase of `stop`); all
other operations leave a terminated task's registry and status alone. -/
def isSessionOp : Op → Prop
  | .login _ _ => True
  | .stopSignal => True
  | .stopReset => True
  | _ => False

/-- A successful login request with cookie text `a=b`. -/
def loginOp : Op := Op.login "a=b".toList true

/-- Reachable authenticated idle state: right after a successful login. -/
def s1 : Sys := execOps sys0 [loginOp]

/-- A `startTask` request for the bounded-progress worker. -/
def startBB : Op := Op.startTask "brain_burst" 0 (Duration.fixed 0) 0

/-- Reachable state in which the single spawned `BrainBurstThread` has run to
completion on its own (1 spawn step + 100 loop iterations + 1 exit step). -/
def sBB : Sys := execOps s1 ([startBB] ++ List.replicate 102 (Op.wstep 0))

/-- Scenario schedule for the `(2,2)` duration task: login, start the
`AwayFromKeyboardThread` with `duration=(2,2)` and `randint` draw `r`, then
run the worker to completion (resolve + two iterations + exit). -/
def traceC6 (r : Nat) : List Op :=
  [loginOp, Op.startTask "away_from_keyboard" 0 (Duration.range 2 2) r,
   Op.wstep 0, Op.wstep 0, Op.wstep 0, Op.wstep 0]

set_option maxRecDepth 8000

/-! ## Frame and shape lemmas about worker micro-steps -/

/-- A worker micro-step never touches the registry, the stored credentials, or
the cancellation event (the `run` bodies only write `task_status` and
`progress`). -/
lemma stepWorker_frame (gs : GlobalState) (w : Worker) :
    (stepWorker gs w).1.active_threads = gs.active_threads ∧
    (stepWorker gs w).1.cookies = gs.cookies ∧
    (stepWorker gs w).1.stop_event = gs.stop_event := by
  obtain ⟨k, u, p, r, ph⟩ := w
  cases k <;> cases ph <;> simp only [stepWorker]
  · simp
  · split_ifs <;> simp
  · simp
  · rcases h : resolveDuration p r with _ | t <;> simp [h]
  · split_ifs <;> simp
  · simp

/-- `stepWrite` is exactly the progress assignment `stepWorker` performs: a
step either leaves `progress` alone (`stepWrite = none`) or replaces it by the
written pair. -/
lemma stepWorker_progress_eq (gs : GlobalState) (w : Worker) :
    (stepWorker gs w).1.progress = (stepWrite gs w).getD gs.progress := by
  obtain ⟨k, u, p, r, ph⟩ := w
  cases k <;> cases ph <;> simp only [stepWorker, stepWrite]
  · simp
  · split_ifs <;> simp
  · simp
  · rcases h : resolveDuration p r with _ | t <;> simp [h]
  · split_ifs <;> simp
  · simp

/-- A thread whose `run` has returned does nothing further. -/
lemma stepWorker_finished (gs : GlobalState) (w : Worker) (h : w.phase = .finished) :
    stepWorker gs w = (gs, w) := by
  obtain ⟨k, u, p, r, ph⟩ := w
  cases k <;> simp at h <;> subst h <;> simp [stepWorker]

/-- A finished thread writes no progress. -/
lemma stepWrite_finished (gs : GlobalState) (w : Worker) (h : w.phase = .finished) :
    stepWrite gs w = none := by
  obtain ⟨k, u, p, r, ph⟩ := w
  cases k <;> simp at h <;> subst h <;> simp [stepWrite]

/-- The spawn step (before the loop) writes no progress. -/
lemma stepWrite_notStarted (gs : GlobalState) (w : Worker) (h : w.phase = .notStarted) :
    stepWrite gs w = none := by
  obtain ⟨k, u, p, r, ph⟩ := w
  cases k <;> simp at h <;> subst h <;> simp [stepWrite]

/-- Shape of one loop iteration, for either worker kind: at the top of the
loop with counter `i` the step either exits the loop (bound reached or
cancellation observed) writing nothing, or writes exactly `(i, t2)` with
`i ≤ t2` (`t2` the written total: `100` for `BrainBurstThread`, the resolved
duration for `AwayFromKeyboardThread`) and moves to counter `i + 1`. -/
lemma stepWorker_looping_cases (gs : GlobalState) (w : Worker) (i t : Int)
    (h : w.phase = .looping i t) :
    ((stepWorker gs w).2.phase = .finished ∧ stepWrite gs w = none) ∨
    (∃ t2, (stepWorker gs w).2.phase = .looping (i + 1) t2 ∧
      stepWrite gs w = some ⟨i, t2⟩ ∧ i ≤ t2) := by
  obtain ⟨kd, u, pr, r, ph⟩ := w
  simp only at h
  subst h
  cases kd <;> simp only [stepWorker, stepWrite] <;> split_ifs with h1 h2 <;> simp
  · omega
  · omega

/-! ## The write trace of one task execution -/

/-- A finished worker produces no further writes, whatever the interference. -/
lemma writesFrom_finished (sched : Nat → Bool) :
    ∀ (fuel k : Nat) (gs : GlobalState) (w : Worker), w.phase = .finished →
      writesFrom sched k gs w fuel = [] := by
  intro fuel
  induction fuel with
  | zero => intro k gs w _; rfl
  | succ n ih =>
      intro k gs w h
      simp only [writesFrom]
      rw [stepWrite_finished _ _ h, stepWorker_finished _ _ h]
      simpa using ih (k + 1) _ w h

/-- Every pair a worker writes from loop counter `i` on has current component
at least `i`. -/
lemma writesFrom_looping_lb (sched : Nat → Bool) :
    ∀ (fuel k : Nat) (gs : GlobalState) (w : Worker) (i t : Int), w.phase = .looping i t →
      ∀ p ∈ writesFrom sched k gs w fuel, i ≤ p.current := by
  intro fuel
  induction fuel with
  | zero => intro k gs w i t _ p hp; simp [writesFrom] at hp
  | succ n ih =>
      intro k gs w i t hw p hp
      simp only [writesFrom, List.mem_append] at hp
      rcases stepWorker_looping_cases { gs with stop_event := sched k } w i t hw with
        ⟨hfin, hnone⟩ | ⟨t2, hph, hsome, hle⟩
      · rcases hp with hp | hp
        · rw [hnone] at hp; simp at hp
        · rw [writesFrom_finished sched n (k + 1) _ _ hfin] at hp; simp at hp
      · rcases hp with hp | hp
        · rw [hsome] at hp
          simp at hp
          subst hp
          exact le_refl i
        · have h2 := ih (k + 1) _ _ (i + 1) t2 hph p hp
          omega

/-- The written progress pairs of one worker execution are monotonically
non-decreasing in the current component, under any cancellation interference. -/
lemma writesFrom_chain (sched : Nat → Bool) :
    ∀ (fuel k : Nat) (gs : GlobalState) (w : Worker),
      List.Chain' (fun p q => p.current ≤ q.current) (writesFrom sched k gs w fuel) := by
  intro fuel
  induction fuel with
  | zero => intro k gs w; simp [writesFrom]
  | succ n ih =>
      intro k gs w
      simp only [writesFrom]
      cases hph : w.phase with
      | notStarted =>
          rw [stepWrite_notStarted _ _ hph]
          simpa using ih (k + 1) _ _
      | finished =>
          rw [stepWrite_finished _ _ hph]
          simpa using ih (k + 1) _ _
      | looping i t =>
          rcases stepWorker_looping_cases { gs with stop_event := sched k } w i t hph with
            ⟨hfin, hnone⟩ | ⟨t2, hph2, hsome, hle⟩
          · rw [hnone]
            simpa using ih (k + 1) _ _
          · rw [hsome]
            simp only [Option.toList_some, List.singleton_append]
            rw [List.chain'_cons']
            refine ⟨fun y hy => ?_, ih (k + 1) _ _⟩
            have hmem := List.mem_of_mem_head? hy
            have h2 := writesFrom_looping_lb sched n (k + 1) _ _ (i + 1) t2 hph2 y hmem
            simpa using by omega

/-- Every written pair satisfies `current ≤ total`: `BrainBurstThread` writes
`(i, 100)` only when `i < 101`, `AwayFromKeyboardThread` writes `(i, t)` only
when `i < t`. -/
lemma writesFrom_le_total (sched : Nat → Bool) :
    ∀ (fuel k : Nat) (gs : GlobalState) (w : Worker),
      ∀ p ∈ writesFrom sched k gs w fuel, p.current ≤ p.total := by
  intro fuel
  induction fuel with
  | zero => intro k gs w p hp; simp [writesFrom] at hp
  | succ n ih =>
      intro k gs w p hp
      simp only [writesFrom, List.mem_append] at hp
      cases hph : w.phase with
      | notStarted =>
          rw [stepWrite_notStarted _ _ hph] at hp
          rcases hp with hp | hp
          · simp at hp
          · exact ih (k + 1) _ _ p hp
      | finished =>
          rw [stepWrite_finished _ _ hph] at hp
          rcases hp with hp | hp
          · simp at hp
          · exact ih (k + 1) _ _ p hp
      | looping i t =>
          rcases stepWorker_looping_cases { gs with stop_event := sched k } w i t hph with
            ⟨hfin, hnone⟩ | ⟨t2, hph2, hsome, hle⟩
          · rcases hp with hp | hp
            · rw [hnone] at hp; simp at hp
            · exact ih (k + 1) _ _ p hp
          · rcases hp with hp | hp
            · rw [hsome] at hp
              simp at hp
              subst hp
              exact hle
            · exact ih (k + 1) _ _ p hp

/-! ## Control-plane lemmas -/

/-- `get_courses` never mutates state, whichever branch is taken. -/
lemma get_courses_fst (s : Sys) (ok : Bool) : (get_courses s ok).1 = s := by
  simp only [get_courses]
  split_ifs <;> rfl

/-- `start_task` from any non-`idle` status is rejected with the
already-running error and changes nothing. -/
lemma start_task_rejected (s : Sys) (k : String) (u : Int) (p : Duration) (r : Nat)
    (h : s.gs.task_status ≠ .idle) :
    start_task s k u p r = (s, .err "已有任务在进行中") := by
  simp [start_task, h]

/-- No single operation other than a successful login can make
`state.cookies` non-empty. -/
lemma execOp_cookies_none (s : Sys) (op : Op) (h : s.gs.cookies = none)
    (hop : ¬ opSetsCookies op) : (execOp s op).1.gs.cookies = none := by
  cases op with
  | login raw ok =>
      rcases hp : parseCookies raw with _ | cd
      · simp [execOp, api_login, hp, GlobalState.reset]
      · cases ok
        · simp [execOp, api_login, hp, GlobalState.reset]
        · exact absurd (by simp [opSetsCookies, hp]) hop
  | startTask k u p r =>
      simp only [execOp, start_task]
      split_ifs <;> simpa using h
  | stopSignal => simpa [execOp, stop_signal] using h
  | stopReset => simp [execOp, stop_reset, GlobalState.reset]
  | getStatus => simpa [execOp] using h
  | getCourses ok => simpa [execOp, get_courses_fst] using h
  | wstep tid =>
      rcases ht : s.threads[tid]? with _ | w
      · simpa [execOp, execWstep, ht] using h
      · simp only [execOp, execWstep, ht]
        rw [(stepWorker_frame s.gs w).2.1]
        exact h

/-- Once the credentials are cleared, they stay cleared along any schedule
that contains no successful login. -/
lemma execOps_cookies_none (ops : List Op) :
    ∀ s : Sys, s.gs.cookies = none → (∀ op ∈ ops, ¬ opSetsCookies op) →
      (execOps s ops).gs.cookies = none := by
  induction ops with
  | nil => intro s h _; exact h
  | cons op rest ih =>
      intro s h hops
      have h1 := execOp_cookies_none s op h (hops op (by simp))
      exact ih _ h1 (fun o ho => hops o (by simp [ho]))

/-- Counting `randint(2, 2)`: every draw resolves to exactly 2. -/
lemma resolve22 (r : Nat) : resolveDuration (Duration.range 2 2) r = some 2 := by
  simp [resolveDuration]

/-! ## Claim theorems -/

/-- C1 (code evaluation at the failing input): from the authenticated idle
state two back-to-back `startTask` requests are BOTH accepted — `start_task`
checks `task_status != "idle"`, but the transition to `"brain_burst"` is
performed only by the spawned thread's own `run` (app.py 421), so before
either thread is scheduled the status is still `idle` — after which both
spawned workers run concurrently (both in their loops).  This refutes the
claimed single-flight invariant on a reachable interleaving. -/
theorem c1_double_start_accepted :
    (execOp s1 startBB).2 = some Resp.ok ∧
    (execOp (execOp s1 startBB).1 startBB).2 = some Resp.ok ∧
    (execOps s1 [startBB, startBB, Op.wstep 0, Op.wstep 1]).gs.active_threads.length = 2 ∧
    (execOps s1 [startBB, startBB, Op.wstep 0, Op.wstep 1]).threads.map Worker.phase
      = [.looping 1 100, .looping 1 100] := by
  decide

/-- C2 (amended): every `stop()` call sets the cancellation signal, and after
the joins — under ANY interleaving of surviving-worker steps, i.e. regardless
of whether the workers terminated within the 5-second join bound — it
unconditionally resets the whole `GlobalState` (status `nologon`, progress
`(0,0)`, registry empty, credentials cleared) and returns success. -/
theorem c2_stop_forced_reset (s : Sys) (ws : List Nat) :
    (stop_signal s).gs.stop_event = true ∧
    (stop_reset (execOps (stop_signal s) (ws.map Op.wstep))).1.gs = GlobalState.reset ∧
    (stop_reset (execOps (stop_signal s) (ws.map Op.wstep))).2 = Resp.ok :=
  ⟨rfl, rfl, rfl⟩

/-- C2 counterexample: calling `stop()` from the authenticated idle state
leaves status `nologon`, NOT `idle` as the claim states for an authenticated
session — `state.reset()` knows nothing about the session. -/
theorem c2_stop_nologon_cex :
    s1.gs.cookies = some [("a".toList, "b".toList)] ∧
    s1.gs.task_status = .idle ∧
    (execOps s1 [Op.stopSignal, Op.stopReset]).gs.task_status = .nologon ∧
    (execOps s1 [Op.stopSignal, Op.stopReset]).gs.task_status ≠ .idle := by
  decide

/-- C3 (amended): an accepted `startTask` spawns exactly one worker (in phase
`notStarted`), registers it, and returns success — but itself leaves status,
progress, cancellation signal and credentials untouched; the transition to
`running(kind)` is performed later by the spawned worker's first step. -/
theorem c3_start_accepted_effects (s : Sys) (k : String) (u : Int) (p : Duration) (r : Nat)
    (h : (start_task s k u p r).2 = Resp.ok) :
    (start_task s k u p r).1.gs.task_status = s.gs.task_status ∧
    (start_task s k u p r).1.gs.progress = s.gs.progress ∧
    (start_task s k u p r).1.gs.stop_event = s.gs.stop_event ∧
    (start_task s k u p r).1.gs.cookies = s.gs.cookies ∧
    (start_task s k u p r).1.threads.length = s.threads.length + 1 ∧
    (start_task s k u p r).1.gs.active_threads = s.gs.active_threads ++ [s.threads.length] ∧
    ((start_task s k u p r).1.threads.getLast?).map Worker.phase = some .notStarted := by
  unfold start_task at *
  split_ifs at h ⊢ <;> simp_all

/-- C3 witness: the accepted start from the post-login state. -/
theorem c3_start_accepted_effects_wit :
    (start_task s1 "brain_burst" 0 (Duration.fixed 0) 0).1.gs.task_status = s1.gs.task_status :=
  (c3_start_accepted_effects s1 "brain_burst" 0 (Duration.fixed 0) 0 (by decide)).1

/-- C3 counterexample: right after an accepted start the status is still
`idle` (not `running(brain_burst)` as the claim requires before the call
returns), even though the worker is spawned and registered. -/
theorem c3_status_still_idle_cex :
    (execOp s1 startBB).2 = some Resp.ok ∧
    (execOps sys0 [loginOp, startBB]).gs.task_status = .idle ∧
    (execOps sys0 [loginOp, startBB]).gs.task_status ≠ .brain_burst ∧
    (execOps sys0 [loginOp, startBB]).threads.map Worker.phase = [.notStarted] ∧
    (execOps sys0 [loginOp, startBB]).gs.active_threads = [0] := by
  decide

/-- C4 (amended): `start_task` performs no authentication check at all; while
not authenticated the status is `nologon ≠ idle`, so the call is rejected by
the single-flight check with the already-running error, spawns nothing and
changes nothing. -/
theorem c4_unauth_start_already_running (s : Sys) (k : String) (u : Int) (p : Duration)
    (r : Nat) (h : s.gs.task_status = .nologon) :
    start_task s k u p r = (s, .err "已有任务在进行中") := by
  have h2 : s.gs.task_status ≠ .idle := by rw [h]; decide
  simp [start_task, h2]

/-- C4 witness: at the initial (unauthenticated) state. -/
theorem c4_unauth_start_already_running_wit :
    start_task sys0 "brain_burst" 0 (Duration.fixed 1) 0 = (sys0, .err "已有任务在进行中") :=
  c4_unauth_start_already_running sys0 "brain_burst" 0 (Duration.fixed 1) 0 rfl

/-- C4 counterexample: the error returned to an unauthenticated `start` is the
already-running message, not a not-authenticated one (the app's please-login
error is `请先登录`); the claim that `start` returns a `NotAuthenticated`
error is false. -/
theorem c4_unauth_start_error_cex :
    sys0.gs.task_status = .nologon ∧
    (start_task sys0 "brain_burst" 0 (Duration.fixed 1) 0).2 = .err "已有任务在进行中" ∧
    (start_task sys0 "brain_burst" 0 (Duration.fixed 1) 0).2 ≠ .err "请先登录" ∧
    (start_task sys0 "brain_burst" 0 (Duration.fixed 1) 0).1 = sys0 := by
  decide

/-- C5 (amended): `api_login` begins with `state.reset()`, so a failed login
(parse error or rejected validation) leaves the state fully RESET — not
unchanged — and performs no config write; only a successful login stores the
parsed credentials, sets status `idle`, and writes the durable config exactly
once.  The spawned-thread list is never touched. -/
theorem c5_login_failure_resets (s : Sys) (raw : List Char) (ok : Bool) :
    ((api_login s raw ok).2 ≠ Resp.ok →
      (api_login s raw ok).1.gs = GlobalState.reset ∧
      (api_login s raw ok).1.configWrites = s.configWrites) ∧
    ((api_login s raw ok).2 = Resp.ok →
      (api_login s raw ok).1.gs.task_status = .idle ∧
      (api_login s raw ok).1.gs.cookies = parseCookies raw ∧
      (api_login s raw ok).1.configWrites = s.configWrites + 1) ∧
    (api_login s raw ok).1.threads = s.threads := by
  rcases h : parseCookies raw with _ | cd <;> cases ok <;> simp [api_login, h]

/-- C5 witness: a failed re-login leaves the reset state. -/
theorem c5_login_failure_resets_wit :
    (api_login s1 "a=b".toList false).1.gs = GlobalState.reset :=
  ((c5_login_failure_resets s1 "a=b".toList false).1 (by decide)).1

/-- C5 counterexample: a failed login from the authenticated state clears the
stored credentials and drops the status to `nologon` — the claim that failures
leave stored state unchanged is false. -/
theorem c5_login_failure_mutates_cex :
    s1.gs.cookies = some [("a".toList, "b".toList)] ∧
    s1.gs.task_status = .idle ∧
    (api_login s1 "a=b".toList false).2 ≠ Resp.ok ∧
    (api_login s1 "a=b".toList false).1.gs.cookies = none ∧
    (api_login s1 "a=b".toList false).1.gs.cookies ≠ s1.gs.cookies ∧
    (api_login s1 "a=b".toList false).1.gs.task_status = .nologon := by
  decide

/-- C6 (amended): with `duration=(2,2)` the duration resolves to exactly 2
whatever the random draw, and — the resolution being consulted exactly once,
at the head of `run` — the whole execution is independent of the draw: the
worker writes `(0,2)` then `(1,2)` and finishes with status `completed` and
final progress `(1, 2)` (the loop `for i in range(total)` writes `(i, total)`
for `i = 0 .. total-1`, so the last written pair is `(total-1, total)`, not
`(total, total)` as the claim states). -/
theorem c6_duration_two_run (r : Nat) :
    resolveDuration (Duration.range 2 2) r = some 2 ∧
    execOps sys0 (traceC6 r) =
      ⟨⟨.completed, ⟨1, 2⟩, false, [0], some [("a".toList, "b".toList)]⟩,
       [⟨.awayFromKeyboard, 0, .range 2 2, r, .finished⟩], 1⟩ := by
  refine ⟨resolve22 r, ?_⟩
  have e0 : execOps sys0 [loginOp, Op.startTask "away_from_keyboard" 0 (Duration.range 2 2) r]
      = ⟨⟨.idle, ⟨0, 0⟩, false, [0], some [("a".toList, "b".toList)]⟩,
         [⟨.awayFromKeyboard, 0, .range 2 2, r, .notStarted⟩], 1⟩ := rfl
  have e1 : execWstep (⟨⟨.idle, ⟨0, 0⟩, false, [0], some [("a".toList, "b".toList)]⟩,
        [⟨.awayFromKeyboard, 0, .range 2 2, r, .notStarted⟩], 1⟩ : Sys) 0
      = ⟨⟨.away_from_keyboard, ⟨0, 0⟩, false, [0], some [("a".toList, "b".toList)]⟩,
         [⟨.awayFromKeyboard, 0, .range 2 2, r, .looping 0 2⟩], 1⟩ := by
    simp [execWstep, stepWorker, resolve22 r]
  show execOps (execWstep (execOps sys0
      [loginOp, Op.startTask "away_from_keyboard" 0 (Duration.range 2 2) r]) 0)
      [Op.wstep 0, Op.wstep 0, Op.wstep 0] = _
  rw [e0, e1]
  rfl

/-- C6 counterexample: the uncancelled `(2,2)` run ends `completed` with final
progress `(1, 2)`, not `(2, 2)` as the claim states — and the value is stable
under further worker steps. -/
theorem c6_final_progress_cex :
    (execOps sys0 (traceC6 0)).gs.task_status = .completed ∧
    (execOps sys0 (traceC6 0)).gs.progress = ⟨1, 2⟩ ∧
    (execOps sys0 (traceC6 0)).gs.progress ≠ ⟨2, 2⟩ ∧
    (execOps sys0 (traceC6 0 ++ [Op.wstep 0, Op.wstep 0])).gs.progress = ⟨1, 2⟩ := by
  decide

/-- C7: within one task execution — any worker, any starting point, any
cancellation interference pattern `sched`, any number of steps — the sequence
of written progress pairs is monotonically non-decreasing in the current
component, and every written pair satisfies `current ≤ total` whenever
`total > 0`. -/
theorem c7_progress_monotone (sched : Nat → Bool) (k : Nat) (gs : GlobalState)
    (w : Worker) (fuel : Nat) :
    List.Chain' (fun p q => p.current ≤ q.current) (writesFrom sched k gs w fuel) ∧
    ∀ p ∈ writesFrom sched k gs w fuel, 0 < p.total → p.current ≤ p.total :=
  ⟨writesFrom_chain sched fuel k gs w,
   fun p hp _ => writesFrom_le_total sched fuel k gs w p hp⟩

/-- C7 witness: a concrete written pair of a `BrainBurstThread` iteration. -/
theorem c7_progress_monotone_wit :
    (⟨1, 100⟩ : ProgressInfo).current ≤ (⟨1, 100⟩ : ProgressInfo).total :=
  (c7_progress_monotone (fun _ => false) 0 GlobalState.reset
      ⟨.brainBurst, 0, .fixed 0, 0, .looping 1 100⟩ 1).2 ⟨1, 100⟩ (by decide) (by decide)

/-- C8: a worker at a loop boundary that observes the cancellation signal
terminates in that very step (one loop-step delay bound), its terminal status
is `completed` — never `error` — and the partial progress written so far is
left untouched. -/
theorem c8_cancel_terminates_non_error (gs : GlobalState) (w : Worker) (i t : Int)
    (hw : w.phase = .looping i t) (hstop : gs.stop_event = true) :
    (stepWorker gs w).2.phase = .finished ∧
    (stepWorker gs w).1.task_status = .completed ∧
    (stepWorker gs w).1.task_status ≠ .error ∧
    (stepWorker gs w).1.progress = gs.progress := by
  obtain ⟨kd, u, pr, r, ph⟩ := w
  simp only at hw
  subst hw
  cases kd <;> simp only [stepWorker] <;> split_ifs <;> simp_all

/-- C8 witness: a mid-loop `BrainBurstThread` with the signal set. -/
theorem c8_cancel_terminates_non_error_wit :
    (stepWorker ⟨.brain_burst, ⟨3, 100⟩, true, [0], none⟩
        ⟨.brainBurst, 0, .fixed 0, 0, .looping 4 100⟩).1.task_status = .completed :=
  (c8_cancel_terminates_non_error ⟨.brain_burst, ⟨3, 100⟩, true, [0], none⟩
      ⟨.brainBurst, 0, .fixed 0, 0, .looping 4 100⟩ 4 100 rfl rfl).2.1

/-- C9: every `stop()` call — under any interleaving with surviving workers,
also when no task is running — clears the stored credentials and sets status
`nologon`; credentials stay cleared along every schedule containing no
successful login; and with cleared credentials every course query fails with
the please-login error and no state change. -/
theorem c9_stop_deauthenticates :
    (∀ (s : Sys) (ws : List Nat),
      (stop_reset (execOps (stop_signal s) (ws.map Op.wstep))).1.gs.cookies = none ∧
      (stop_reset (execOps (stop_signal s) (ws.map Op.wstep))).1.gs.task_status = .nologon) ∧
    (∀ (s : Sys) (ops : List Op), s.gs.cookies = none →
      (∀ op ∈ ops, ¬ opSetsCookies op) → (execOps s ops).gs.cookies = none) ∧
    (∀ (s : Sys) (ok : Bool), s.gs.cookies = none →
      get_courses s ok = (s, .err "请先登录")) := by
  refine ⟨fun s ws => ⟨rfl, rfl⟩, fun s ops h hops => execOps_cookies_none ops s h hops, ?_⟩
  intro s ok h
  simp [get_courses, h]

/-- C9 witness: a course query at the freshly reset state. -/
theorem c9_stop_deauthenticates_wit : get_courses sys0 true = (sys0, .err "请先登录") :=
  c9_stop_deauthenticates.2.2 sys0 true rfl

/-- C10: a worker step never unregisters anything; after the single
`BrainBurstThread` terminates on its own the registry still holds it,
`status()` reports `completed` with one active thread, a new `start` is
rejected with the already-running error, and every operation other than
`login`/`stop` preserves this terminal configuration. -/
theorem c10_terminated_worker_stays_registered :
    (∀ (gs : GlobalState) (w : Worker),
      (stepWorker gs w).1.active_threads = gs.active_threads) ∧
    sBB.gs.task_status = .completed ∧
    sBB.threads.map Worker.phase = [.finished] ∧
    get_status sBB = .statusR .completed ⟨100, 100⟩ 1 ∧
    (∀ (k : String) (u : Int) (p : Duration) (r : Nat),
      start_task sBB k u p r = (sBB, .err "已有任务在进行中")) ∧
    (∀ op : Op, ¬ isSessionOp op →
      (execOp sBB op).1.gs.task_status = .completed ∧
      (execOp sBB op).1.gs.active_threads.length = 1) := by
  refine ⟨fun gs w => (stepWorker_frame gs w).1, by decide, by decide, by decide, ?_, ?_⟩
  · intro k u p r
    exact start_task_rejected sBB k u p r (by decide)
  · intro op hop
    cases op with
    | login raw ok => exact absurd trivial hop
    | stopSignal => exact absurd trivial hop
    | stopReset => exact absurd trivial hop
    | startTask k u p r =>
        simp only [execOp]
        rw [start_task_rejected sBB k u p r (by decide)]
        exact ⟨by decide, by decide⟩
    | getStatus =>
        simp only [execOp]
        exact ⟨by decide, by decide⟩
    | getCourses ok =>
        simp only [execOp]
        rw [get_courses_fst]
        exact ⟨by decide, by decide⟩
    | wstep tid =>
        simp only [execOp]
        match tid with
        | 0 => exact ⟨by decide, by decide⟩
        | n + 1 =>
            have hn : sBB.threads[n + 1]? = none := by
              apply List.getElem?_eq_none
              have h1 : sBB.threads.length = 1 := by decide
              omega
            simp only [execWstep, hn]
            exact ⟨by decide, by decide⟩

/-- C10 witness: the status query on the terminated-worker state. -/
theorem c10_terminated_worker_stays_registered_wit :
    (execOp sBB Op.getStatus).1.gs.task_status = .completed :=
  (c10_terminated_worker_stays_registered.2.2.2.2.2 Op.getStatus (fun h => h)).1
